import Mathlib

/-!
Verification of `ddpg_agent.py` (DDPG agent: replay buffer, OU noise,
agent step/act/learn/soft-update, shared resource pool).

Floating-point values are modelled as rationals (`ℚ`), vectors and
parameter tensors as lists of rationals.  External collaborators (the
torch networks from `ddpg_model`, the Adam optimizers and autodiff) are
modelled as abstract function parameters; the pseudo-random draws of
`random.random` / `random.sample` are modelled as explicit oracle
arguments (a draw vector, resp. a list of selected buffer positions).
-/

/-- Hyperparameter `BUFFER_SIZE = int(1e6)` from `ddpg_agent.py`. -/
def BUFFER_SIZE : Nat := 1000000

/-- Hyperparameter `BATCH_SIZE = 512` from `ddpg_agent.py`. -/
def BATCH_SIZE : Nat := 512

/-- Hyperparameter `GAMMA = 0.99` from `ddpg_agent.py`. -/
def GAMMA : ℚ := 99 / 100

/-- Hyperparameter `TAU = 1e-3` from `ddpg_agent.py`. -/
def TAU : ℚ := 1 / 1000

/-- Hyperparameter `LEARN_N_INTERVAL = 20` from `ddpg_agent.py`. -/
def LEARN_N_INTERVAL : Nat := 20

/-- Hyperparameter `LEARN_N_TIMES = 10` from `ddpg_agent.py`. -/
def LEARN_N_TIMES : Nat := 10

/-- The `Experience` namedtuple stored by the replay buffer:
`(state, action, reward, next_state, done)`. -/
structure Experience where
  state : List ℚ
  action : List ℚ
  reward : ℚ
  next_state : List ℚ
  done : Bool
deriving DecidableEq

/-- The `ReplayBuffer` object: `self.memory = deque(maxlen=buffer_size)`,
plus the `action_size` and `batch_size` fields set in `__init__`.
The deque is modelled front-to-back: index 0 is the oldest entry. -/
structure ReplayBuffer where
  action_size : Nat
  buffer_size : Nat
  batch_size : Nat
  memory : List Experience
deriving DecidableEq

/-- `ReplayBuffer.__init__`: the memory starts empty. -/
def ReplayBuffer.init (action_size buffer_size batch_size : Nat) : ReplayBuffer :=
  { action_size := action_size, buffer_size := buffer_size,
    batch_size := batch_size, memory := [] }

/-- `ReplayBuffer.add`: builds the experience tuple and appends it to the
deque.  A `deque(maxlen=n)` appends on the right and, when the length
would exceed `maxlen`, discards entries from the left until the length is
back to `maxlen` (for `maxlen = 0` the appended element is discarded at
once). -/
def ReplayBuffer.add (rb : ReplayBuffer) (state action : List ℚ) (reward : ℚ)
    (next_state : List ℚ) (d : Bool) : ReplayBuffer :=
  let e : Experience :=
    { state := state, action := action, reward := reward,
      next_state := next_state, done := d }
  let m := rb.memory ++ [e]
  { rb with
    memory := if rb.buffer_size < m.length then m.drop (m.length - rb.buffer_size) else m }

/-- `ReplayBuffer.add` repackaged to take the experience record itself,
used to state properties of sequences of `add` calls. -/
def ReplayBuffer.addExp (rb : ReplayBuffer) (e : Experience) : ReplayBuffer :=
  rb.add e.state e.action e.reward e.next_state e.done

/-- `ReplayBuffer.__len__`: the current number of stored experiences. -/
def ReplayBuffer.len (rb : ReplayBuffer) : Nat := rb.memory.length

/-- The five parallel batched arrays returned by `ReplayBuffer.sample`:
`(states, actions, rewards, next_states, dones)`, batch dimension first.
`dones` holds the flags converted to 0/1 floats
(`astype(np.uint8)` then `.float()`). -/
structure Batch where
  states : List (List ℚ)
  actions : List (List ℚ)
  rewards : List ℚ
  next_states : List (List ℚ)
  dones : List ℚ
deriving DecidableEq

/-- `ReplayBuffer.sample`: `random.sample(self.memory, k=self.batch_size)`
raises `ValueError` exactly when `batch_size` exceeds the population size,
and otherwise returns `batch_size` distinct elements of the deque; the
random choice is modelled by the oracle `sel`, the list of chosen buffer
positions in the order the library returns them.  The five comprehensions
then stack the fields into parallel arrays.  The method assigns no field
of `self`, so the post-state (second component) is the receiver. -/
def ReplayBuffer.sample (rb : ReplayBuffer) (sel : List Nat) :
    Option Batch × ReplayBuffer :=
  if rb.memory.length < rb.batch_size then (none, rb)
  else
    let experiences := sel.filterMap (fun i => rb.memory[i]?)
    (some
      { states := experiences.map Experience.state,
        actions := experiences.map Experience.action,
        rewards := experiences.map Experience.reward,
        next_states := experiences.map Experience.next_state,
        dones := experiences.map (fun e => if e.done then (1 : ℚ) else 0) }, rb)

/-- A valid draw of `random.sample(memory, k)`: `k` pairwise-distinct
positions of the population, in some order. -/
def validSelection (sel : List Nat) (k n : Nat) : Prop :=
  sel.length = k ∧ sel.Nodup ∧ ∀ i ∈ sel, i < n

instance (sel : List Nat) (k n : Nat) : Decidable (validSelection sel k n) := by
  unfold validSelection; infer_instance

/-- The `OUNoise` object: `mu = mu_scalar * np.ones(size)`, `theta`,
`sigma`, and the mutable `state` vector.  `__init__` ends with `reset()`,
so the initial state equals `mu`. -/
structure OUNoise where
  mu : List ℚ
  theta : ℚ
  sigma : ℚ
  state : List ℚ
deriving DecidableEq

/-- `OUNoise.__init__(size, seed, mu, theta, sigma)`: builds the constant
mean vector and calls `reset()`.  The `random.seed(seed)` call only seeds
the process-global random stream, which is modelled by the draw oracles. -/
def OUNoise.init (size : Nat) (muScalar theta sigma : ℚ) : OUNoise :=
  { mu := List.replicate size muScalar, theta := theta, sigma := sigma,
    state := List.replicate size muScalar }

/-- `OUNoise.__init__` with the source's default parameters
`mu=0., theta=0.15, sigma=0.2`. -/
def OUNoise.initDefault (size : Nat) : OUNoise :=
  OUNoise.init size 0 (15 / 100) (2 / 10)

/-- `OUNoise.reset`: `self.state = copy.copy(self.mu)`. -/
def OUNoise.reset (n : OUNoise) : OUNoise := { n with state := n.mu }

/-- `OUNoise.sample`: `dx = theta*(mu - x) + sigma*np.array([random.random() ...])`;
`self.state = x + dx; return self.state`.  The vector of uniform draws
(one `random.random()` call per dimension) is the oracle `draws`.
Returns the updated object together with the returned vector. -/
def OUNoise.sample (n : OUNoise) (draws : List ℚ) : OUNoise × List ℚ :=
  let x := n.state
  let dx := List.zipWith (fun md d => n.theta * (md.1 - md.2) + n.sigma * d)
    (n.mu.zip x) draws
  let newState := List.zipWith (· + ·) x dx
  ({ n with state := newState }, newState)

/-- Modelled from the spec: the `Actor` / `Critic` network module
(`ddpg_model.py` is not under `src/`).  Per the spec's external-interface
section a network is constructed with `(state_size, action_size, seed)`
and exposes a forward pass and an ordered list of trainable parameter
tensors.  The initial parameter values are produced by the external
module and are left unconstrained here (no claim below depends on them);
a tensor is modelled as a flat list of rationals. -/
structure Network where
  state_size : Nat
  action_size : Nat
  seed : Nat
  params : List (List ℚ)
deriving DecidableEq

/-- Modelled from the spec: network construction `Actor/Critic(state_size,
action_size, seed)`; the externally initialized parameter list is opaque,
modelled as empty. -/
def Network.init (state_size action_size seed : Nat) : Network :=
  { state_size := state_size, action_size := action_size, seed := seed, params := [] }

/-- The `Agent.AgentResourcePool` object: the four networks and the shared
replay buffer (the two Adam optimizers are external; their binding to the
local networks only is reflected in `Agent.learn` below, whose optimizer
step oracles are applied to the local parameter lists only). -/
structure AgentResourcePool where
  actor_local : Network
  actor_target : Network
  critic_local : Network
  critic_target : Network
  memory : ReplayBuffer
deriving DecidableEq

/-- `Agent.AgentResourcePool.__init__(state_size, action_size, random_seed)`:
four networks of the given dimensions plus
`ReplayBuffer(action_size, BUFFER_SIZE, BATCH_SIZE, random_seed)`. -/
def AgentResourcePool.init (state_size action_size random_seed : Nat) : AgentResourcePool :=
  { actor_local := Network.init state_size action_size random_seed,
    actor_target := Network.init state_size action_size random_seed,
    critic_local := Network.init state_size action_size random_seed,
    critic_target := Network.init state_size action_size random_seed,
    memory := ReplayBuffer.init action_size BUFFER_SIZE BATCH_SIZE }

/-- The per-instance fields of an `Agent` (`state_size`, `action_size`,
and the private noise process).  The shared `Agent.resourcePool` class
attribute is threaded separately as an `Option AgentResourcePool`. -/
structure AgentLocal where
  state_size : Nat
  action_size : Nat
  noise : OUNoise
deriving DecidableEq

/-- `Agent.__init__(state_size, action_size, random_seed)`: records the
sizes, creates the private `OUNoise(action_size, random_seed)`, and sets
the class attribute `Agent.resourcePool` to a fresh
`AgentResourcePool(state_size, action_size, random_seed)` only when it is
still `None`.  Returns the new agent and the updated class attribute. -/
def Agent.construct (resourcePool : Option AgentResourcePool)
    (state_size action_size random_seed : Nat) :
    AgentLocal × Option AgentResourcePool :=
  let ag : AgentLocal :=
    { state_size := state_size, action_size := action_size,
      noise := OUNoise.initDefault action_size }
  match resourcePool with
  | none => (ag, some (AgentResourcePool.init state_size action_size random_seed))
  | some p => (ag, some p)

/-- `np.clip(x, lo, hi)` applied to one scalar. -/
def clip (lo hi x : ℚ) : ℚ := min hi (max lo x)

/-- `Agent.act(state, add_noise)`: the raw deterministic action is the
`actor_local` forward pass on `state`, an external computation modelled by
the `rawAction` argument; when `add_noise` holds, one sample of the
agent's private noise process (with uniform draw oracle `draws`) is added;
the sum is clipped elementwise to `[-1, 1]`.  Returns the updated agent
(the noise state mutates) and the action. -/
def Agent.act (a : AgentLocal) (rawAction : List ℚ) (draws : List ℚ)
    (add_noise : Bool) : AgentLocal × List ℚ :=
  if add_noise then
    let res := a.noise.sample draws
    ({ a with noise := res.1 }, (List.zipWith (· + ·) rawAction res.2).map (clip (-1) 1))
  else
    (a, rawAction.map (clip (-1) 1))

/-- `Agent.reset`: resets only the private noise process. -/
def Agent.resetAgent (a : AgentLocal) : AgentLocal := { a with noise := a.noise.reset }

/-- One tensor of `Agent.soft_update`:
`target_param.data.copy_(tau*local_param.data + (1.0-tau)*target_param.data)`,
elementwise over the tensor entries. -/
def soft_update_tensor (tau : ℚ) (localP targetP : List ℚ) : List ℚ :=
  List.zipWith (fun l t => tau * l + (1 - tau) * t) localP targetP

/-- `Agent.soft_update(local_model, target_model, tau)`: zips the two
ordered parameter lists and overwrites each target tensor with the blend.
Returns the new target parameter list. -/
def soft_update (tau : ℚ) (localParams targetParams : List (List ℚ)) : List (List ℚ) :=
  List.zipWith (soft_update_tensor tau) localParams targetParams

/-- Line `Q_targets = rewards + (gamma * Q_targets_next * (1 - dones))`
of `Agent.learn`, elementwise over the batch (the three tensors are
`[batch, 1]` column vectors, modelled as lists indexed by the batch
dimension; `dones` are the 0/1 floats produced by `sample`). -/
def compute_Q_targets (gamma : ℚ) (rewards Q_targets_next dones : List ℚ) : List ℚ :=
  List.zipWith (fun rd q => rd.1 + gamma * q * (1 - rd.2)) (rewards.zip dones)
    Q_targets_next

/-- `Agent.learn(experiences, gamma)`.  External computations are oracle
arguments: `actorTargetForward` / `criticTargetForward` /
`criticLocalForward` are the network forward passes (a function of the
network's parameter list and the per-row inputs), and `criticOptStep` /
`actorOptStep` are the Adam `zero_grad`/`backward`/`step` sequences.
`criticOptStep` is a function of the critic-loss inputs `(Q_expected,
Q_targets)` and of the parameters it is bound to; `actorOptStep` is a
function of the actor-loss inputs (the just-updated critic-local
parameters and the batch states) and of the parameters it is bound to.
As in the source, each optimizer is bound to the corresponding local
network's parameters only, the critic step precedes the actor-loss
computation, and both target networks are overwritten at the end by
`soft_update` with `TAU` (critic first, then actor). -/
def Agent.learn
    (actorTargetForward : List (List ℚ) → List ℚ → List ℚ)
    (criticTargetForward : List (List ℚ) → List ℚ → List ℚ → ℚ)
    (criticLocalForward : List (List ℚ) → List ℚ → List ℚ → ℚ)
    (criticOptStep : List ℚ → List ℚ → List (List ℚ) → List (List ℚ))
    (actorOptStep : List (List ℚ) → List (List ℚ) → List (List ℚ) → List (List ℚ))
    (pool : AgentResourcePool) (batch : Batch) (gamma : ℚ) : AgentResourcePool :=
  let actions_next := batch.next_states.map (actorTargetForward pool.actor_target.params)
  let Q_targets_next :=
    List.zipWith (criticTargetForward pool.critic_target.params) batch.next_states actions_next
  let Q_targets := compute_Q_targets gamma batch.rewards Q_targets_next batch.dones
  let Q_expected :=
    List.zipWith (criticLocalForward pool.critic_local.params) batch.states batch.actions
  let criticLocalParams := criticOptStep Q_expected Q_targets pool.critic_local.params
  let actorLocalParams := actorOptStep criticLocalParams batch.states pool.actor_local.params
  let criticTargetParams := soft_update TAU criticLocalParams pool.critic_target.params
  let actorTargetParams := soft_update TAU actorLocalParams pool.actor_target.params
  { pool with
    critic_local := { pool.critic_local with params := criticLocalParams },
    actor_local := { pool.actor_local with params := actorLocalParams },
    critic_target := { pool.critic_target with params := criticTargetParams },
    actor_target := { pool.actor_target with params := actorTargetParams } }

/-- The learning loop of `Agent.step`:
`for i in range(LEARN_N_TIMES): experiences = memory.sample(); learn(experiences, GAMMA)`.
One iteration — one fresh `sample` draw followed by one `learn` call — is
abstracted as `learnIter i`, where `i` is the loop index (each iteration
uses its own independent random batch). -/
def iterateLearn (learnIter : Nat → AgentResourcePool → AgentResourcePool)
    (pool : AgentResourcePool) : AgentResourcePool :=
  (List.range LEARN_N_TIMES).foldl (fun q i => learnIter i q) pool

/-- `Agent.step(time_step, state, action, reward, next_state, done)`:
always adds the transition to the shared buffer; returns early when
`time_step % LEARN_N_INTERVAL != 0`; otherwise, when the buffer length
exceeds `BATCH_SIZE`, runs `LEARN_N_TIMES` sample-and-learn iterations.
Returns the updated pool together with the number of `learn` invocations
(a spy counter for the learning call). -/
def Agent.step (learnIter : Nat → AgentResourcePool → AgentResourcePool)
    (pool : AgentResourcePool) (time_step : Nat) (state action : List ℚ)
    (reward : ℚ) (next_state : List ℚ) (d : Bool) : AgentResourcePool × Nat :=
  let pool1 := { pool with memory := pool.memory.add state action reward next_state d }
  if time_step % LEARN_N_INTERVAL ≠ 0 then (pool1, 0)
  else if BATCH_SIZE < pool1.memory.len then
    (iterateLearn learnIter pool1, LEARN_N_TIMES)
  else (pool1, 0)

/-- Two ordered parameter lists of the same shape: equally many tensors,
and corresponding tensors have equally many entries (as produced by
`zip(target_model.parameters(), local_model.parameters())` over twin
architectures). -/
def sameShape (l t : List (List ℚ)) : Prop :=
  l.length = t.length ∧ ∀ p ∈ l.zip t, p.1.length = p.2.length

instance (l t : List (List ℚ)) : Decidable (sameShape l t) := by
  unfold sameShape; infer_instance

/-- Elementwise reading of `List.zipWith` through `getD`. -/
theorem getD_zipWith {α β γ : Type} (f : α → β → γ) (l₁ : List α) (l₂ : List β)
    (i : Nat) (d₁ : α) (d₂ : β) (d₃ : γ) (h₁ : i < l₁.length) (h₂ : i < l₂.length) :
    (List.zipWith f l₁ l₂).getD i d₃ = f (l₁.getD i d₁) (l₂.getD i d₂) := by
  induction l₁ generalizing l₂ i with
  | nil => simp at h₁
  | cons a as ih =>
    cases l₂ with
    | nil => simp at h₂
    | cons b bs =>
      cases i with
      | zero => rfl
      | succ k =>
        simp only [List.zipWith_cons_cons, List.getD_cons_succ]
        exact ih bs k (by simpa using h₁) (by simpa using h₂)

/-- Elementwise reading of `List.zip` through `getD`. -/
theorem getD_zip {α β : Type} (l₁ : List α) (l₂ : List β) (i : Nat)
    (d₁ : α) (d₂ : β) (h₁ : i < l₁.length) (h₂ : i < l₂.length) :
    (l₁.zip l₂).getD i (d₁, d₂) = (l₁.getD i d₁, l₂.getD i d₂) := by
  induction l₁ generalizing l₂ i with
  | nil => simp at h₁
  | cons a as ih =>
    cases l₂ with
    | nil => simp at h₂
    | cons b bs =>
      cases i with
      | zero => rfl
      | succ k =>
        simp only [List.zip_cons_cons, List.getD_cons_succ]
        exact ih bs k (by simpa using h₁) (by simpa using h₂)

/-- A `filterMap` of in-range lookups loses nothing. -/
theorem length_filterMap_lookup {α : Type} (l : List α) (sel : List Nat)
    (h : ∀ i ∈ sel, i < l.length) :
    (sel.filterMap (fun i => l[i]?)).length = sel.length := by
  induction sel with
  | nil => rfl
  | cons j js ih =>
    have hj : j < l.length := h j (by simp)
    rw [List.filterMap_cons, List.getElem?_eq_getElem hj]
    simpa using ih (fun i hi => h i (by simp [hi]))

/-- `clip` keeps a value inside `[lo, hi]` whenever `lo ≤ hi`. -/
theorem clip_bounds (lo hi x : ℚ) (h : lo ≤ hi) :
    lo ≤ clip lo hi x ∧ clip lo hi x ≤ hi := by
  unfold clip
  exact ⟨le_min h (le_max_left lo x), min_le_left hi _⟩

/-- A single `add` never leaves the buffer above its capacity. -/
theorem ReplayBuffer.add_len_le (rb : ReplayBuffer) (s a : List ℚ) (r : ℚ)
    (ns : List ℚ) (d : Bool) : (rb.add s a r ns d).len ≤ rb.buffer_size := by
  unfold ReplayBuffer.add ReplayBuffer.len
  simp only
  split
  · simp only [List.length_drop]
    omega
  · omega

/-- `add` touches only the memory field. -/
theorem ReplayBuffer.add_buffer_size (rb : ReplayBuffer) (s a : List ℚ) (r : ℚ)
    (ns : List ℚ) (d : Bool) : (rb.add s a r ns d).buffer_size = rb.buffer_size := rfl

/-- A capacity-respecting buffer still respects its capacity after a whole
sequence of `add` calls. -/
theorem foldl_addExp_len_le (es : List Experience) (rb : ReplayBuffer)
    (h : rb.len ≤ rb.buffer_size) :
    (es.foldl ReplayBuffer.addExp rb).len ≤ rb.buffer_size := by
  induction es generalizing rb with
  | nil => exact h
  | cons e es ih =>
    simp only [List.foldl_cons]
    have h1 := ih (rb.addExp e) (ReplayBuffer.add_len_le rb e.state e.action e.reward e.next_state e.done)
    simpa [ReplayBuffer.addExp] using h1

/-- Blending with `tau = 1` copies the local tensor. -/
theorem soft_update_tensor_one (l t : List ℚ) (h : l.length = t.length) :
    soft_update_tensor 1 l t = l := by
  induction l generalizing t with
  | nil => rfl
  | cons a as ih =>
    cases t with
    | nil => simp at h
    | cons b bs =>
      simp only [soft_update_tensor, List.zipWith_cons_cons] at *
      rw [show (1 : ℚ) * a + (1 - 1) * b = a by ring]
      rw [ih bs (by simpa using h)]

/-- Blending with `tau = 0` keeps the target tensor. -/
theorem soft_update_tensor_zero (l t : List ℚ) (h : l.length = t.length) :
    soft_update_tensor 0 l t = t := by
  induction l generalizing t with
  | nil => cases t with
    | nil => rfl
    | cons b bs => simp at h
  | cons a as ih =>
    cases t with
    | nil => simp at h
    | cons b bs =>
      simp only [soft_update_tensor, List.zipWith_cons_cons] at *
      rw [show (0 : ℚ) * a + (1 - 0) * b = b by ring]
      rw [ih bs (by simpa using h)]

/-- `sameShape` decomposes over a head tensor pair and the tails. -/
theorem sameShape_cons (a b : List ℚ) (as bs : List (List ℚ))
    (h : sameShape (a :: as) (b :: bs)) :
    a.length = b.length ∧ sameShape as bs := by
  obtain ⟨hlen, hall⟩ := h
  refine ⟨hall (a, b) (by simp), by simpa using hlen, ?_⟩
  intro p hp
  exact hall p (by simp [List.zip_cons_cons, hp])

/-- Under `sameShape`, corresponding tensors read through `getD` have equal
lengths. -/
theorem sameShape_getD_length (l t : List (List ℚ)) (h : sameShape l t)
    (i : Nat) (hi : i < l.length) :
    (l.getD i []).length = (t.getD i []).length := by
  induction l generalizing t i with
  | nil => simp at hi
  | cons a as ih =>
    cases t with
    | nil => obtain ⟨hlen, _⟩ := h; simp at hlen
    | cons b bs =>
      obtain ⟨hab, htail⟩ := sameShape_cons a b as bs h
      cases i with
      | zero => simpa using hab
      | succ k =>
        simp only [List.getD_cons_succ]
        exact ih bs htail k (by simpa using hi)

/-- `sameShape` lists have type-level equal lengths, tensors included, so
`soft_update 1` returns the local list. -/
theorem soft_update_one (l t : List (List ℚ)) (h : sameShape l t) :
    soft_update 1 l t = l := by
  induction l generalizing t with
  | nil => rfl
  | cons a as ih =>
    cases t with
    | nil => obtain ⟨hlen, _⟩ := h; simp at hlen
    | cons b bs =>
      obtain ⟨hab, htail⟩ := sameShape_cons a b as bs h
      simp only [soft_update, List.zipWith_cons_cons] at *
      rw [soft_update_tensor_one a b hab, ih bs htail]

/-- `soft_update 0` returns the target list on same-shape inputs. -/
theorem soft_update_zero (l t : List (List ℚ)) (h : sameShape l t) :
    soft_update 0 l t = t := by
  induction l generalizing t with
  | nil =>
    cases t with
    | nil => rfl
    | cons b bs => obtain ⟨hlen, _⟩ := h; simp at hlen
  | cons a as ih =>
    cases t with
    | nil => obtain ⟨hlen, _⟩ := h; simp at hlen
    | cons b bs =>
      obtain ⟨hab, htail⟩ := sameShape_cons a b as bs h
      simp only [soft_update, List.zipWith_cons_cons] at *
      rw [soft_update_tensor_zero a b hab, ih bs htail]

/-- The learning loop leaves the replay buffer untouched whenever each
iteration does. -/
theorem foldl_learnIter_memory (learnIter : Nat → AgentResourcePool → AgentResourcePool)
    (hmem : ∀ i p, (learnIter i p).memory = p.memory)
    (l : List Nat) (p : AgentResourcePool) :
    (l.foldl (fun q i => learnIter i q) p).memory = p.memory := by
  induction l generalizing p with
  | nil => rfl
  | cons a as ih =>
    simp only [List.foldl_cons]
    rw [ih, hmem]

/-- C1: in every `learn` call the target parameters of `actor_target` and
`critic_target` change only by the soft-update blend with `TAU`: the new
target parameter lists are exactly `soft_update TAU local' target_old`,
where `local'` are the post-optimizer local parameters (the optimizer step
oracles are bound to the local networks' parameters only, as in
`AgentResourcePool.__init__`), and for any gradient-engine behaviour
whatsoever (universally quantified oracles) no other write to target
parameters occurs; the replay memory is untouched as well. -/
theorem learn_updates_targets_by_soft_update_only
    (atf : List (List ℚ) → List ℚ → List ℚ)
    (ctf clf : List (List ℚ) → List ℚ → List ℚ → ℚ)
    (cos : List ℚ → List ℚ → List (List ℚ) → List (List ℚ))
    (aos : List (List ℚ) → List (List ℚ) → List (List ℚ) → List (List ℚ))
    (pool : AgentResourcePool) (batch : Batch) (gamma : ℚ) :
    (Agent.learn atf ctf clf cos aos pool batch gamma).critic_target.params =
      soft_update TAU (Agent.learn atf ctf clf cos aos pool batch gamma).critic_local.params
        pool.critic_target.params ∧
    (Agent.learn atf ctf clf cos aos pool batch gamma).actor_target.params =
      soft_update TAU (Agent.learn atf ctf clf cos aos pool batch gamma).actor_local.params
        pool.actor_target.params ∧
    (Agent.learn atf ctf clf cos aos pool batch gamma).memory = pool.memory :=
  ⟨rfl, rfl, rfl⟩

/-- C4: the bootstrapped TD target of `learn` is computed elementwise as
`Q_targets = rewards + gamma * Q_targets_next * (1 - dones)`; on a batch
element with `done = 1` the target collapses to the reward, and with
`done = 0` it is `reward + gamma * Q_targets_next`. -/
theorem compute_Q_targets_spec (gamma : ℚ) (rewards qnext dones : List ℚ)
    (n i : Nat) (hr : rewards.length = n) (hq : qnext.length = n)
    (hd : dones.length = n) (hi : i < n) :
    (compute_Q_targets gamma rewards qnext dones).getD i 0 =
      rewards.getD i 0 + gamma * qnext.getD i 0 * (1 - dones.getD i 0) ∧
    (dones.getD i 0 = 1 →
      (compute_Q_targets gamma rewards qnext dones).getD i 0 = rewards.getD i 0) ∧
    (dones.getD i 0 = 0 →
      (compute_Q_targets gamma rewards qnext dones).getD i 0 =
        rewards.getD i 0 + gamma * qnext.getD i 0) := by
  have hzip : (rewards.zip dones).length = n := by
    rw [List.length_zip, hr, hd, Nat.min_self]
  have key : (compute_Q_targets gamma rewards qnext dones).getD i 0 =
      rewards.getD i 0 + gamma * qnext.getD i 0 * (1 - dones.getD i 0) := by
    unfold compute_Q_targets
    rw [getD_zipWith _ (rewards.zip dones) qnext i (0, 0) 0 0 (by omega) (by omega)]
    rw [getD_zip rewards dones i 0 0 (by omega) (by omega)]
  refine ⟨key, ?_, ?_⟩ <;> intro h <;> rw [key, h] <;> ring

/-- Witness for `compute_Q_targets_spec` at `gamma = 1/2`,
`rewards = [3, 5]`, `Q_targets_next = [10, 10]`, `dones = [1, 0]`. -/
theorem compute_Q_targets_spec_witness :
    (0 < 2 ∧ ([(1 : ℚ), 0].getD 0 0 = 1) ∧
      (compute_Q_targets (1 / 2) [3, 5] [10, 10] [1, 0]).getD 0 0 = 3) := by
  have h := compute_Q_targets_spec (1 / 2) [3, 5] [10, 10] [1, 0] 2 0 rfl rfl rfl
    (by omega)
  exact ⟨by omega, by decide, by rw [h.2.1 (by decide)]; decide⟩

/-- C5: `soft_update` sets every target parameter elementwise to
`tau*local + (1-tau)*target`; with `tau = 1` the target parameter list
becomes exactly the local one, and with `tau = 0` it is unchanged
(all for equal-shape ordered parameter lists, as produced by zipping twin
networks). -/
theorem soft_update_spec (l t : List (List ℚ)) (h : sameShape l t) :
    (∀ (tau : ℚ) (i j : Nat), i < l.length → j < (l.getD i []).length →
      ((soft_update tau l t).getD i []).getD j 0 =
        tau * (l.getD i []).getD j 0 + (1 - tau) * (t.getD i []).getD j 0) ∧
    soft_update 1 l t = l ∧ soft_update 0 l t = t := by
  refine ⟨?_, soft_update_one l t h, soft_update_zero l t h⟩
  intro tau i j hi hj
  have hit : i < t.length := by rw [← h.1]; exact hi
  have hjt : j < (t.getD i []).length := by
    rw [← sameShape_getD_length l t h i hi]; exact hj
  unfold soft_update
  rw [getD_zipWith (soft_update_tensor tau) l t i [] [] [] hi hit]
  unfold soft_update_tensor
  rw [getD_zipWith _ (l.getD i []) (t.getD i []) j 0 0 0 hj hjt]

/-- Witness for `soft_update_spec` on the one-tensor lists `[[2, 6]]` and
`[[4, 8]]`. -/
theorem soft_update_spec_witness :
    sameShape [[(2 : ℚ), 6]] [[4, 8]] ∧
    ((soft_update (1 / 2) [[(2 : ℚ), 6]] [[4, 8]]).getD 0 []).getD 0 0 =
      (1 / 2) * 2 + (1 - 1 / 2) * 4 ∧
    soft_update 1 [[(2 : ℚ), 6]] [[4, 8]] = [[2, 6]] ∧
    soft_update 0 [[(2 : ℚ), 6]] [[4, 8]] = [[4, 8]] := by
  have hs : sameShape [[(2 : ℚ), 6]] [[4, 8]] := by decide
  have h := soft_update_spec [[(2 : ℚ), 6]] [[4, 8]] hs
  exact ⟨hs, h.1 (1 / 2) 0 0 (by decide) (by decide), h.2.1, h.2.2⟩

/-- C2: the buffer size never exceeds the capacity (for one `add` and for
any sequence of `add` calls from a fresh buffer); an `add` on a full
buffer with positive capacity evicts exactly the oldest entry before
appending the new one (FIFO); and in the concrete scenario of a
capacity-5, batch-size-2 buffer receiving seven distinct experiences
e1..e7, the final contents are exactly [e3, e4, e5, e6, e7] with
length 5. -/
theorem replay_buffer_capacity_fifo :
    (∀ (rb : ReplayBuffer) (s a : List ℚ) (r : ℚ) (ns : List ℚ) (d : Bool),
      (rb.add s a r ns d).len ≤ rb.buffer_size) ∧
    (∀ (es : List Experience) (asz C bsz : Nat),
      (es.foldl ReplayBuffer.addExp (ReplayBuffer.init asz C bsz)).len ≤ C) ∧
    (∀ (rb : ReplayBuffer) (s a : List ℚ) (r : ℚ) (ns : List ℚ) (d : Bool),
      rb.len = rb.buffer_size → 0 < rb.buffer_size →
      (rb.add s a r ns d).memory = rb.memory.tail ++
        [{ state := s, action := a, reward := r, next_state := ns, done := d }]) ∧
    (([⟨[1], [], 1, [], false⟩, ⟨[2], [], 2, [], false⟩, ⟨[3], [], 3, [], false⟩,
        ⟨[4], [], 4, [], false⟩, ⟨[5], [], 5, [], false⟩, ⟨[6], [], 6, [], false⟩,
        ⟨[7], [], 7, [], false⟩] : List Experience).foldl ReplayBuffer.addExp
          (ReplayBuffer.init 1 5 2)).memory =
      [⟨[3], [], 3, [], false⟩, ⟨[4], [], 4, [], false⟩, ⟨[5], [], 5, [], false⟩,
        ⟨[6], [], 6, [], false⟩, ⟨[7], [], 7, [], false⟩] ∧
    (([⟨[1], [], 1, [], false⟩, ⟨[2], [], 2, [], false⟩, ⟨[3], [], 3, [], false⟩,
        ⟨[4], [], 4, [], false⟩, ⟨[5], [], 5, [], false⟩, ⟨[6], [], 6, [], false⟩,
        ⟨[7], [], 7, [], false⟩] : List Experience).foldl ReplayBuffer.addExp
          (ReplayBuffer.init 1 5 2)).len = 5 := by
  refine ⟨ReplayBuffer.add_len_le, ?_, ?_, by decide, by decide⟩
  · intro es asz C bsz
    exact foldl_addExp_len_le es (ReplayBuffer.init asz C bsz) (by simp [ReplayBuffer.len, ReplayBuffer.init])
  · intro rb s a r ns d hlen hpos
    have hlen' : rb.memory.length = rb.buffer_size := hlen
    simp only [ReplayBuffer.add]
    have hcond : rb.buffer_size < (rb.memory ++
        [({ state := s, action := a, reward := r, next_state := ns, done := d } : Experience)]).length := by
      simp [hlen']
    rw [if_pos hcond]
    have hone : (rb.memory ++
        [({ state := s, action := a, reward := r, next_state := ns, done := d } : Experience)]).length -
        rb.buffer_size = 1 := by
      simp [hlen']
    rw [hone]
    rw [List.drop_append_of_le_length (by omega), List.drop_one]

/-- Witness for `replay_buffer_capacity_fifo`: eviction on a concrete full
capacity-1 buffer. -/
theorem replay_buffer_capacity_fifo_witness :
    (ReplayBuffer.mk 1 1 1 [⟨[9], [], 9, [], false⟩]).len =
      (ReplayBuffer.mk 1 1 1 [⟨[9], [], 9, [], false⟩]).buffer_size ∧
    0 < (ReplayBuffer.mk 1 1 1 [⟨[9], [], 9, [], false⟩]).buffer_size ∧
    ((ReplayBuffer.mk 1 1 1 [⟨[9], [], 9, [], false⟩]).add [8] [] 8 [] false).memory =
      (ReplayBuffer.mk 1 1 1 [⟨[9], [], 9, [], false⟩]).memory.tail ++
        [{ state := [8], action := [], reward := 8, next_state := [], done := false }] := by
  refine ⟨rfl, by decide, ?_⟩
  exact replay_buffer_capacity_fifo.2.2.1 (ReplayBuffer.mk 1 1 1 [⟨[9], [], 9, [], false⟩])
    [8] [] 8 [] false rfl (by decide)

/-- C3: `Agent.step` always appends the transition to the shared buffer;
the learning loop runs exactly when `time_step` is a multiple of
`LEARN_N_INTERVAL` (20) and the buffer holds strictly more than
`BATCH_SIZE` (512) experiences, in which case exactly `LEARN_N_TIMES`
(10) consecutive learn iterations run (each iteration indexed by its own
fresh batch draw); the invocation counter is 0 otherwise, and in
particular `time_step = 19` never triggers learning.  The hypothesis
`hmem` records that one sample-and-learn iteration never writes the
buffer (proved of the embedded `sample` and `learn` in the theorems for
the other claims). -/
theorem step_gating_spec (learnIter : Nat → AgentResourcePool → AgentResourcePool)
    (hmem : ∀ i p, (learnIter i p).memory = p.memory)
    (pool : AgentResourcePool) (t : Nat) (s a : List ℚ) (r : ℚ) (ns : List ℚ)
    (d : Bool) :
    (Agent.step learnIter pool t s a r ns d).1.memory = pool.memory.add s a r ns d ∧
    (Agent.step learnIter pool t s a r ns d).2 =
      (if t % LEARN_N_INTERVAL = 0 ∧ BATCH_SIZE < (pool.memory.add s a r ns d).len
        then LEARN_N_TIMES else 0) ∧
    (t % LEARN_N_INTERVAL = 0 → BATCH_SIZE < (pool.memory.add s a r ns d).len →
      (Agent.step learnIter pool t s a r ns d).1 =
        iterateLearn learnIter { pool with memory := pool.memory.add s a r ns d }) ∧
    (Agent.step learnIter pool 19 s a r ns d).2 = 0 := by
  have h19 : (19 : Nat) % LEARN_N_INTERVAL ≠ 0 := by decide
  refine ⟨?_, ?_, ?_, ?_⟩
  · simp only [Agent.step, iterateLearn]
    split_ifs with h1 h2
    · rfl
    · rw [foldl_learnIter_memory learnIter hmem]
    · rfl
  · by_cases h1 : t % LEARN_N_INTERVAL = 0
    · by_cases h2 : BATCH_SIZE < (pool.memory.add s a r ns d).memory.length
      · simp [Agent.step, ReplayBuffer.len, h1, h2]
      · simp [Agent.step, ReplayBuffer.len, h1, h2]
    · simp [Agent.step, ReplayBuffer.len, h1]
  · intro h1 h2
    simp only [ReplayBuffer.len] at h2
    simp [Agent.step, ReplayBuffer.len, h1, h2]
  · simp [Agent.step, h19]

/-- Witness for `step_gating_spec`: identity learn iterations, a fresh
pool, `time_step = 19`. -/
theorem step_gating_spec_witness :
    (Agent.step (fun _ p => p) (AgentResourcePool.init 1 1 0) 19 [] [] 0 [] false).1.memory =
      (AgentResourcePool.init 1 1 0).memory.add [] [] 0 [] false ∧
    (Agent.step (fun _ p => p) (AgentResourcePool.init 1 1 0) 19 [] [] 0 [] false).2 = 0 :=
  ⟨(step_gating_spec (fun _ p => p) (fun _ _ => rfl) (AgentResourcePool.init 1 1 0)
      19 [] [] 0 [] false).1,
    (step_gating_spec (fun _ p => p) (fun _ _ => rfl) (AgentResourcePool.init 1 1 0)
      19 [] [] 0 [] false).2.2.2⟩

/-- C6: `sample` fails (returns `none`, the `ValueError` of
`random.sample`) whenever the stored count is below `batch_size`;
for any valid without-replacement draw (distinct in-range positions,
`batch_size` many) it succeeds and returns five parallel arrays whose
first dimension is exactly `batch_size`, with the done flags represented
as 0/1 rationals.  A buffer whose size equals `batch_size` admits a valid
draw, so sampling it succeeds (see the witness). -/
theorem sample_spec (rb : ReplayBuffer) (sel : List Nat) :
    (rb.memory.length < rb.batch_size → (rb.sample sel).1 = none) ∧
    (validSelection sel rb.batch_size rb.memory.length →
      ∃ b : Batch, (rb.sample sel).1 = some b ∧
        b.states.length = rb.batch_size ∧ b.actions.length = rb.batch_size ∧
        b.rewards.length = rb.batch_size ∧ b.next_states.length = rb.batch_size ∧
        b.dones.length = rb.batch_size ∧ ∀ q ∈ b.dones, q = 0 ∨ q = 1) := by
  constructor
  · intro h
    simp [ReplayBuffer.sample, h]
  · rintro ⟨hlen, hnodup, hmem⟩
    have hsub : sel.toFinset ⊆ Finset.range rb.memory.length := by
      intro i hi
      rw [List.mem_toFinset] at hi
      exact Finset.mem_range.mpr (hmem i hi)
    have hcard := Finset.card_le_card hsub
    rw [Finset.card_range, List.toFinset_card_of_nodup hnodup] at hcard
    have hnot : ¬ rb.memory.length < rb.batch_size := by omega
    have hflen : (sel.filterMap (fun i => rb.memory[i]?)).length = rb.batch_size := by
      rw [length_filterMap_lookup rb.memory sel hmem, hlen]
    refine ⟨{ states := (sel.filterMap (fun i => rb.memory[i]?)).map Experience.state,
              actions := (sel.filterMap (fun i => rb.memory[i]?)).map Experience.action,
              rewards := (sel.filterMap (fun i => rb.memory[i]?)).map Experience.reward,
              next_states := (sel.filterMap (fun i => rb.memory[i]?)).map Experience.next_state,
              dones := (sel.filterMap (fun i => rb.memory[i]?)).map
                (fun e => if e.done then (1 : ℚ) else 0) },
      ?_, ?_, ?_, ?_, ?_, ?_, ?_⟩
    · simp [ReplayBuffer.sample, hnot]
    · simp [List.length_map, hflen]
    · simp [List.length_map, hflen]
    · simp [List.length_map, hflen]
    · simp [List.length_map, hflen]
    · simp [List.length_map, hflen]
    · intro q hq
      obtain ⟨e, _, rfl⟩ := List.mem_map.mp hq
      cases h : e.done <;> simp [h]

/-- Witness for `sample_spec`: a buffer below `batch_size` fails, and a
buffer whose size equals `batch_size = 2` succeeds on the draw `[1, 0]`. -/
theorem sample_spec_witness :
    ((ReplayBuffer.mk 1 5 3 []).memory.length < (ReplayBuffer.mk 1 5 3 []).batch_size ∧
      ((ReplayBuffer.mk 1 5 3 []).sample [0]).1 = none) ∧
    (validSelection [1, 0]
        (ReplayBuffer.mk 1 5 2 [⟨[1], [], 1, [], true⟩, ⟨[2], [], 2, [], false⟩]).batch_size
        (ReplayBuffer.mk 1 5 2 [⟨[1], [], 1, [], true⟩,
          ⟨[2], [], 2, [], false⟩]).memory.length ∧
      ∃ b : Batch,
        ((ReplayBuffer.mk 1 5 2 [⟨[1], [], 1, [], true⟩,
            ⟨[2], [], 2, [], false⟩]).sample [1, 0]).1 = some b ∧
        b.states.length = (ReplayBuffer.mk 1 5 2 [⟨[1], [], 1, [], true⟩,
          ⟨[2], [], 2, [], false⟩]).batch_size ∧
        b.actions.length = (ReplayBuffer.mk 1 5 2 [⟨[1], [], 1, [], true⟩,
          ⟨[2], [], 2, [], false⟩]).batch_size ∧
        b.rewards.length = (ReplayBuffer.mk 1 5 2 [⟨[1], [], 1, [], true⟩,
          ⟨[2], [], 2, [], false⟩]).batch_size ∧
        b.next_states.length = (ReplayBuffer.mk 1 5 2 [⟨[1], [], 1, [], true⟩,
          ⟨[2], [], 2, [], false⟩]).batch_size ∧
        b.dones.length = (ReplayBuffer.mk 1 5 2 [⟨[1], [], 1, [], true⟩,
          ⟨[2], [], 2, [], false⟩]).batch_size ∧
        ∀ q ∈ b.dones, q = 0 ∨ q = 1) := by
  have hv : validSelection [1, 0]
      (ReplayBuffer.mk 1 5 2 [⟨[1], [], 1, [], true⟩, ⟨[2], [], 2, [], false⟩]).batch_size
      (ReplayBuffer.mk 1 5 2 [⟨[1], [], 1, [], true⟩,
        ⟨[2], [], 2, [], false⟩]).memory.length := by decide
  have hlt : (ReplayBuffer.mk 1 5 3 []).memory.length <
      (ReplayBuffer.mk 1 5 3 []).batch_size := by decide
  exact ⟨⟨hlt, (sample_spec (ReplayBuffer.mk 1 5 3 []) [0]).1 hlt⟩,
    hv, (sample_spec (ReplayBuffer.mk 1 5 2 [⟨[1], [], 1, [], true⟩,
      ⟨[2], [], 2, [], false⟩]) [1, 0]).2 hv⟩

/-- C7: every element of the action vector returned by `Agent.act` lies in
`[-1, 1]`, for every raw network output, every noise draw, and both values
of `add_noise` — the clip is applied after the noise is added. -/
theorem act_output_in_range (a : AgentLocal) (raw draws : List ℚ)
    (withNoise : Bool) (x : ℚ)
    (hx : x ∈ (Agent.act a raw draws withNoise).2) : -1 ≤ x ∧ x ≤ 1 := by
  cases withNoise with
  | false =>
    simp only [Agent.act, Bool.false_eq_true, if_false] at hx
    obtain ⟨y, _, rfl⟩ := List.mem_map.mp hx
    exact clip_bounds (-1) 1 y (by norm_num)
  | true =>
    simp only [Agent.act, if_true] at hx
    obtain ⟨y, _, rfl⟩ := List.mem_map.mp hx
    exact clip_bounds (-1) 1 y (by norm_num)

/-- Witness for `act_output_in_range`: raw output `[5]` with a zero noise
draw clips to `1 ∈ [-1, 1]`. -/
theorem act_output_in_range_witness :
    (1 : ℚ) ∈ (Agent.act (AgentLocal.mk 1 1 (OUNoise.initDefault 1)) [5] [0] true).2 ∧
    (-1 ≤ (1 : ℚ) ∧ (1 : ℚ) ≤ 1) := by
  have hact : (Agent.act (AgentLocal.mk 1 1 (OUNoise.initDefault 1)) [5] [0] true).2 =
      [1] := by
    norm_num [Agent.act, OUNoise.sample, OUNoise.initDefault, OUNoise.init, clip,
      max_eq_right, min_eq_left]
  have hmem : (1 : ℚ) ∈
      (Agent.act (AgentLocal.mk 1 1 (OUNoise.initDefault 1)) [5] [0] true).2 := by
    rw [hact]
    exact List.mem_singleton.mpr rfl
  exact ⟨hmem, act_output_in_range (AgentLocal.mk 1 1 (OUNoise.initDefault 1))
    [5] [0] true 1 hmem⟩

/-- C8: `reset` sets the OU state to the mean vector `mu` (the all-zero
vector under the default `mu = 0`, with default `theta = 0.15` and
`sigma = 0.2`), and `sample` updates the state in place by
`state + (theta*(mu - state) + sigma*draws)` elementwise — one uniform
draw per dimension — returning exactly the updated state. -/
theorem ou_noise_spec (k : Nat) (n : OUNoise) (draws : List ℚ)
    (hmu : n.mu.length = n.state.length) (hd : draws.length = n.state.length) :
    n.reset.state = n.mu ∧
    (OUNoise.initDefault k).state = List.replicate k 0 ∧
    (OUNoise.initDefault k).theta = 15 / 100 ∧
    (OUNoise.initDefault k).sigma = 2 / 10 ∧
    (n.sample draws).1.state = (n.sample draws).2 ∧
    (∀ i, i < n.state.length →
      ((n.sample draws).2).getD i 0 =
        n.state.getD i 0 +
          (n.theta * (n.mu.getD i 0 - n.state.getD i 0) +
            n.sigma * draws.getD i 0)) := by
  refine ⟨rfl, rfl, rfl, rfl, rfl, ?_⟩
  intro i hi
  have hzip : (n.mu.zip n.state).length = n.state.length := by
    rw [List.length_zip, hmu, Nat.min_self]
  have hdx : (List.zipWith (fun md d => n.theta * (md.1 - md.2) + n.sigma * d)
      (n.mu.zip n.state) draws).length = n.state.length := by
    rw [List.length_zipWith, hzip, hd, Nat.min_self]
  simp only [OUNoise.sample]
  rw [getD_zipWith _ n.state _ i 0 0 0 hi (by omega)]
  rw [getD_zipWith _ (n.mu.zip n.state) draws i (0, 0) 0 0 (by omega) (by omega)]
  rw [getD_zip n.mu n.state i 0 0 (by omega) hi]

/-- Witness for `ou_noise_spec` on a 2-dimensional process with mean 3 and
the draw vector `[1/2, 1/4]`. -/
theorem ou_noise_spec_witness :
    (OUNoise.init 2 3 (15 / 100) (2 / 10)).mu.length =
      (OUNoise.init 2 3 (15 / 100) (2 / 10)).state.length ∧
    [(1 : ℚ) / 2, 1 / 4].length = (OUNoise.init 2 3 (15 / 100) (2 / 10)).state.length ∧
    (((OUNoise.init 2 3 (15 / 100) (2 / 10)).sample [1 / 2, 1 / 4]).2).getD 0 0 =
      (OUNoise.init 2 3 (15 / 100) (2 / 10)).state.getD 0 0 +
        ((OUNoise.init 2 3 (15 / 100) (2 / 10)).theta *
            ((OUNoise.init 2 3 (15 / 100) (2 / 10)).mu.getD 0 0 -
              (OUNoise.init 2 3 (15 / 100) (2 / 10)).state.getD 0 0) +
          (OUNoise.init 2 3 (15 / 100) (2 / 10)).sigma *
            [(1 : ℚ) / 2, 1 / 4].getD 0 0) := by
  refine ⟨rfl, rfl, ?_⟩
  exact (ou_noise_spec 2 (OUNoise.init 2 3 (15 / 100) (2 / 10)) [1 / 2, 1 / 4]
    rfl rfl).2.2.2.2.2 0 (by decide)

/-- C9 (amended): `Agent.resourcePool` is a single process-wide instance
regardless of configuration: the first `Agent` construction creates it
with that agent's `(state_size, action_size)`, and every subsequently
constructed `Agent` — whatever its dimensions — reuses the very same pool
object (hence two agents with identical dimensions share the same
networks, optimizers and buffer, and the second acts with weights updated
by the first's learning). -/
theorem agent_shared_pool (s a seed s2 a2 seed2 : Nat) (p : AgentResourcePool) :
    (Agent.construct none s a seed).2 = some (AgentResourcePool.init s a seed) ∧
    (Agent.construct (some p) s2 a2 seed2).2 = some p ∧
    (AgentResourcePool.init s a seed).actor_local.state_size = s ∧
    (AgentResourcePool.init s a seed).actor_local.action_size = a :=
  ⟨rfl, rfl, rfl, rfl⟩

/-- C9 counterexample: the pool is not per-`(state_size, action_size)`
instantiated — after a first agent is built with dimensions `(3, 2)`, a
second agent built with the different dimensions `(5, 4)` still receives
the `(3, 2)` pool, and no `(5, 4)` pool ever exists. -/
theorem agent_pool_not_per_config :
    (Agent.construct (Agent.construct none 3 2 0).2 5 4 0).2 =
      some (AgentResourcePool.init 3 2 0) ∧
    (AgentResourcePool.init 3 2 0).actor_local.state_size ≠ 5 ∧
    (AgentResourcePool.init 3 2 0).actor_local.action_size ≠ 4 :=
  ⟨rfl, by decide, by decide⟩

/-- C10: `sample` is read-only on the buffer object: the post-state equals
the receiver, so the stored experiences, their order, and `len()` are
unchanged (the embedded method contains no write to `self`). -/
theorem sample_frame (rb : ReplayBuffer) (sel : List Nat)
    (hge : rb.batch_size ≤ rb.memory.length) :
    ((rb.sample sel).2).memory = rb.memory ∧
    ((rb.sample sel).2).len = rb.len ∧
    (rb.sample sel).2 = rb := by
  have hnot : ¬ rb.memory.length < rb.batch_size := by omega
  have h2 : (rb.sample sel).2 = rb := by
    simp [ReplayBuffer.sample, hnot]
  exact ⟨by rw [h2], by rw [h2], h2⟩

/-- Witness for `sample_frame` on a size-1, batch-size-1 buffer. -/
theorem sample_frame_witness :
    (ReplayBuffer.mk 1 5 1 [⟨[1], [], 1, [], false⟩]).batch_size ≤
      (ReplayBuffer.mk 1 5 1 [⟨[1], [], 1, [], false⟩]).memory.length ∧
    ((ReplayBuffer.mk 1 5 1 [⟨[1], [], 1, [], false⟩]).sample [0]).2 =
      ReplayBuffer.mk 1 5 1 [⟨[1], [], 1, [], false⟩] := by
  refine ⟨by decide, ?_⟩
  exact (sample_frame (ReplayBuffer.mk 1 5 1 [⟨[1], [], 1, [], false⟩]) [0]
    (by decide)).2.2
